import Mathlib

/-!
Verification development for the "Drop-in Note" Obsidian plugin
(`src/main.ts`, which contains two revisions of the plugin: v1.1.0 at the
top of the file and v1.0.0 below it).

Strings of the TypeScript source are modelled as `List Char`.  Host (Obsidian)
APIs that the plugin merely calls — `normalizePath`, `generateMarkdownLink` —
are abstract function parameters; the vault, the editor surface and the modal
are modelled from the way the plugin uses them (exact-path lookup, text
splicing by line/column positions, keydown events).
-/

namespace DropInNote

/-- TypeScript strings, modelled as lists of characters. -/
abbrev Str := List Char

/-- Convenience conversion from Lean string literals. -/
def strOf (s : String) : Str := s.toList

/- ------------------------------------------------------------------ -/
/- Substring search (JavaScript `String.prototype.indexOf`)           -/
/- ------------------------------------------------------------------ -/

/-- `isPfx n h` is true when `n` is a prefix of `h` (character by character). -/
def isPfx : Str → Str → Bool
  | [], _ => true
  | _ :: _, [] => false
  | a :: s, b :: t => a == b && isPfx s t

/-- Scan of `hay` for the needle, carrying the absolute index `i` of the
current suffix; returns the absolute index of the first occurrence. -/
def firstIndexOfAux (needle : Str) : Str → Nat → Option Nat
  | [], i => if isPfx needle [] then some i else none
  | c :: t, i => if isPfx needle (c :: t) then some i else firstIndexOfAux needle t (i + 1)

/-- JavaScript `hay.indexOf(needle)`, with `none` standing for `-1`. -/
def firstIndexOf (needle hay : Str) : Option Nat := firstIndexOfAux needle hay 0

theorem isPfx_append (s : Str) : ∀ t : Str, isPfx s (s ++ t) = true := by
  induction s with
  | nil => intro t; rfl
  | cons a s ih => intro t; simp [isPfx, ih]

theorem isPfx_decompose : ∀ s t : Str, isPfx s t = true → t = s ++ t.drop s.length := by
  intro s
  induction s with
  | nil => intro t _; simp
  | cons a s ih =>
    intro t h
    cases t with
    | nil => simp [isPfx] at h
    | cons b t =>
      simp only [isPfx, Bool.and_eq_true, beq_iff_eq] at h
      obtain ⟨hab, hst⟩ := h
      subst hab
      simpa using ih t hst

theorem isPfx_length_le : ∀ s t : Str, isPfx s t = true → s.length ≤ t.length := by
  intro s
  induction s with
  | nil => intro t _; simp
  | cons a s ih =>
    intro t h
    cases t with
    | nil => simp [isPfx] at h
    | cons b t =>
      simp only [isPfx, Bool.and_eq_true] at h
      simpa using ih t h.2

theorem firstIndexOfAux_some : ∀ (hay : Str) (i j : Nat) (needle : Str),
    firstIndexOfAux needle hay i = some j →
    ∃ k, j = i + k ∧ isPfx needle (hay.drop k) = true := by
  intro hay
  induction hay with
  | nil =>
    intro i j needle h
    by_cases hp : isPfx needle [] = true
    · refine ⟨0, ?_, by simpa using hp⟩
      simp [firstIndexOfAux, hp] at h
      omega
    · simp [firstIndexOfAux, hp] at h
  | cons c t ih =>
    intro i j needle h
    by_cases hp : isPfx needle (c :: t) = true
    · refine ⟨0, ?_, by simpa using hp⟩
      simp [firstIndexOfAux, hp] at h
      omega
    · simp only [firstIndexOfAux, hp, if_false] at h
      obtain ⟨k, hk, hpk⟩ := ih (i + 1) j needle h
      exact ⟨k + 1, by omega, by simpa using hpk⟩

/-- A successful `indexOf` yields an index at which the needle really occurs. -/
theorem firstIndexOf_some_occurs (needle hay : Str) (j : Nat)
    (h : firstIndexOf needle hay = some j) : isPfx needle (hay.drop j) = true := by
  obtain ⟨k, hk, hp⟩ := firstIndexOfAux_some hay 0 j needle h
  simpa [hk] using hp

/-- A successful `indexOf` of a non-empty needle stays within the haystack. -/
theorem firstIndexOf_some_bound (needle hay : Str) (j : Nat)
    (hne : needle ≠ []) (h : firstIndexOf needle hay = some j) :
    j + needle.length ≤ hay.length := by
  have hocc := firstIndexOf_some_occurs needle hay j h
  have hlen := isPfx_length_le _ _ hocc
  have hdrop : (hay.drop j).length = hay.length - j := List.length_drop j hay
  have hj : j ≤ hay.length := by
    by_contra hgt
    push_neg at hgt
    have : hay.drop j = [] := List.drop_eq_nil_of_le (Nat.le_of_lt hgt)
    rw [this] at hocc
    cases needle with
    | nil => exact hne rfl
    | cons a s => simp [isPfx] at hocc
  omega

/- ------------------------------------------------------------------ -/
/- Editor positions (CodeMirror line/column pairs) and offsets        -/
/- ------------------------------------------------------------------ -/

/-- An editor position: `line`/`ch` pair, as used by `offsetToPos`,
`replaceRange` and `setCursor` in the source. -/
structure Pos where
  line : Nat
  ch : Nat
deriving DecidableEq

/-- `editor.offsetToPos(off)`: the line/column coordinates of character
offset `off` in the document.  `line` counts the newline characters before
the offset; `ch` is the distance from the start of that line. -/
def offsetToPos : Str → Nat → Pos
  | _, 0 => ⟨0, 0⟩
  | [], _ + 1 => ⟨0, 0⟩
  | c :: t, n + 1 =>
    let p := offsetToPos t n
    if c = '\n' then ⟨p.line + 1, p.ch⟩
    else if p.line = 0 then ⟨0, p.ch + 1⟩ else p

/-- Offset of the start of line `n` in the document (one past the `n`-th
newline; the document length if there are fewer lines). -/
def lineStart : Str → Nat → Nat
  | _, 0 => 0
  | [], _ + 1 => 0
  | c :: t, n + 1 => if c = '\n' then 1 + lineStart t n else 1 + lineStart t (n + 1)

/-- The character offset denoted by a line/column pair. -/
def posToOffset (doc : Str) (p : Pos) : Nat := lineStart doc p.line + p.ch

theorem offsetToPos_cons_newline (t : Str) (n : Nat) :
    offsetToPos ('\n' :: t) (n + 1) = ⟨(offsetToPos t n).line + 1, (offsetToPos t n).ch⟩ := by
  simp [offsetToPos]

theorem offsetToPos_cons_other {c : Char} (hc : c ≠ '\n') (t : Str) (n : Nat) :
    offsetToPos (c :: t) (n + 1) =
      if (offsetToPos t n).line = 0 then ⟨0, (offsetToPos t n).ch + 1⟩ else offsetToPos t n := by
  simp [offsetToPos, hc]

theorem lineStart_cons_newline (t : Str) (n : Nat) :
    lineStart ('\n' :: t) (n + 1) = 1 + lineStart t n := by
  simp [lineStart]

theorem lineStart_cons_other {c : Char} (hc : c ≠ '\n') (t : Str) (n : Nat) :
    lineStart (c :: t) (n + 1) = 1 + lineStart t (n + 1) := by
  simp [lineStart, hc]

theorem lineStart_zero (doc : Str) : lineStart doc 0 = 0 := by
  cases doc <;> rfl

/-- Round trip: converting an in-range offset to a position and back is the
identity. -/
theorem posToOffset_offsetToPos :
    ∀ (doc : Str) (off : Nat), off ≤ doc.length →
      posToOffset doc (offsetToPos doc off) = off := by
  intro doc
  induction doc with
  | nil =>
    intro off h
    have : off = 0 := Nat.le_zero.mp (by simpa using h)
    subst this
    rfl
  | cons c t ih =>
    intro off h
    cases off with
    | zero => simp [offsetToPos, posToOffset, lineStart_zero]
    | succ n =>
      have hn : n ≤ t.length := by simpa using h
      have IH : lineStart t (offsetToPos t n).line + (offsetToPos t n).ch = n := ih n hn
      by_cases hc : c = '\n'
      · subst hc
        rw [offsetToPos_cons_newline]
        unfold posToOffset
        rw [lineStart_cons_newline]
        dsimp only
        omega
      · rw [offsetToPos_cons_other hc]
        by_cases hl : (offsetToPos t n).line = 0
        · rw [if_pos hl]
          unfold posToOffset
          rw [lineStart_zero]
          rw [hl, lineStart_zero] at IH
          dsimp only
          omega
        · rw [if_neg hl]
          unfold posToOffset
          obtain ⟨m, hm⟩ : ∃ m, (offsetToPos t n).line = m + 1 :=
            ⟨(offsetToPos t n).line - 1, by omega⟩
          rw [hm] at IH ⊢
          rw [lineStart_cons_other hc]
          omega

/-- The `line` component of `offsetToPos` counts the newlines in the prefix
before the offset. -/
theorem offsetToPos_line_count :
    ∀ (doc : Str) (off : Nat), off ≤ doc.length →
      (offsetToPos doc off).line = (doc.take off).count '\n' := by
  intro doc
  induction doc with
  | nil =>
    intro off h
    have : off = 0 := Nat.le_zero.mp (by simpa using h)
    subst this; rfl
  | cons c t ih =>
    intro off h
    cases off with
    | zero => rfl
    | succ n =>
      have hn : n ≤ t.length := by simpa using h
      have IH := ih n hn
      have htake : (c :: t).take (n + 1) = c :: t.take n := rfl
      by_cases hc : c = '\n'
      · subst hc
        rw [offsetToPos_cons_newline, htake]
        simp [List.count_cons, IH, Nat.add_comm]
      · rw [offsetToPos_cons_other hc, htake]
        by_cases hl : (offsetToPos t n).line = 0
        · rw [if_pos hl]
          simp [List.count_cons, hc, ← IH, hl]
        · rw [if_neg hl]
          simp [List.count_cons, hc, ← IH]

/-- Line starts that fall inside the left part of an append are unchanged by
the right part. -/
theorem lineStart_append :
    ∀ (xs : Str) (n : Nat) (ys : Str), n ≤ xs.count '\n' →
      lineStart (xs ++ ys) n = lineStart xs n := by
  intro xs
  induction xs with
  | nil =>
    intro n ys h
    have : n = 0 := Nat.le_zero.mp (by simpa using h)
    subst this
    simp [lineStart_zero]
  | cons c t ih =>
    intro n ys h
    cases n with
    | zero => simp [lineStart_zero]
    | succ m =>
      have hcons : (c :: t) ++ ys = c :: (t ++ ys) := rfl
      rw [hcons]
      by_cases hc : c = '\n'
      · subst hc
        rw [lineStart_cons_newline, lineStart_cons_newline]
        have hm : m ≤ t.count '\n' := by
          simp [List.count_cons] at h
          omega
        rw [ih m ys hm]
      · rw [lineStart_cons_other hc, lineStart_cons_other hc]
        have hm : m + 1 ≤ t.count '\n' := by
          simp [List.count_cons, hc] at h
          omega
        rw [ih (m + 1) ys hm]

theorem take_length_append (xs ys : List Char) : (xs ++ ys).take xs.length = xs := by
  induction xs with
  | nil => rfl
  | cons a t ih => simp [List.take, ih]

theorem drop_length_append (xs ys : List Char) : (xs ++ ys).drop xs.length = ys := by
  induction xs with
  | nil => rfl
  | cons a t ih => simp [List.drop, ih]

/-- The position arithmetic behind `setCursor({line: from.line, ch: from.ch +
link.length})` (v1.0.0, lines 306-309): after the token occurrence at offset
`pre.length` is replaced by `link`, that line/column pair denotes the offset
immediately after the inserted link. -/
theorem cursor_after_link (pre tok link post : Str) :
    posToOffset (pre ++ link ++ post)
      ⟨(offsetToPos (pre ++ tok ++ post) pre.length).line,
       (offsetToPos (pre ++ tok ++ post) pre.length).ch + link.length⟩
    = pre.length + link.length := by
  rw [List.append_assoc pre link post, List.append_assoc pre tok post]
  have hpre : pre.length ≤ (pre ++ (tok ++ post)).length := by
    have hlen : (pre ++ (tok ++ post)).length = pre.length + (tok ++ post).length :=
      List.length_append _ _
    omega
  have hline : (offsetToPos (pre ++ (tok ++ post)) pre.length).line = pre.count '\n' := by
    have h := offsetToPos_line_count (pre ++ (tok ++ post)) pre.length hpre
    rwa [take_length_append] at h
  have hround := posToOffset_offsetToPos (pre ++ (tok ++ post)) pre.length hpre
  unfold posToOffset at hround ⊢
  dsimp only
  rw [hline] at hround ⊢
  rw [lineStart_append pre _ (tok ++ post) (Nat.le_refl _)] at hround
  rw [lineStart_append pre _ (link ++ post) (Nat.le_refl _)]
  omega

/- ------------------------------------------------------------------ -/
/- The active editor surface                                          -/
/- ------------------------------------------------------------------ -/

/-- State of the active editor: the document text and the selection, as a
pair of character offsets `selA ≤ selB` (a caret when `selA = selB`). -/
structure Editor where
  doc : Str
  selA : Nat
  selB : Nat
deriving DecidableEq

/-- `editor.getValue()`. -/
def Editor.getValue (ed : Editor) : Str := ed.doc

/-- `editor.replaceSelection(t)`: the selection is replaced by `t` and the
caret ends up immediately after the inserted text. -/
def Editor.replaceSelection (ed : Editor) (t : Str) : Editor :=
  { doc := ed.doc.take ed.selA ++ t ++ ed.doc.drop ed.selB,
    selA := ed.selA + t.length,
    selB := ed.selA + t.length }

/-- `editor.replaceRange(t, p, q)`: the text between positions `p` and `q`
is replaced by `t`.  The selection offsets are left untouched (the host
remaps positions across the edit; none of the verified properties inspect
the selection after a bare `replaceRange`). -/
def Editor.replaceRange (ed : Editor) (t : Str) (p q : Pos) : Editor :=
  let i := posToOffset ed.doc p
  let j := posToOffset ed.doc q
  { ed with doc := ed.doc.take i ++ t ++ ed.doc.drop j }

/-- `editor.setCursor(p)`: collapse the selection at position `p`.  (The host
clamps out-of-range positions; the verified flows only pass in-range ones.) -/
def Editor.setCursor (ed : Editor) (p : Pos) : Editor :=
  let i := posToOffset ed.doc p
  { ed with selA := i, selB := i }

/- ------------------------------------------------------------------ -/
/- The caret token (v1.0.0, line 257)                                 -/
/- ------------------------------------------------------------------ -/

def digitChar (d : Nat) : Char := Char.ofNat (48 + d)

/-- Decimal digits of a natural number, with explicit fuel (always
sufficient at `n + 1`). -/
def natCharsAux : Nat → Nat → Str
  | 0, _ => []
  | fuel + 1, n =>
    if n < 10 then [digitChar n] else natCharsAux fuel (n / 10) ++ [digitChar (n % 10)]

/-- The decimal representation of `Date.now()`. -/
def natChars (n : Nat) : Str := natCharsAux (n + 1) n

/-- The caret placeholder token `%%dropin_<Date.now()>%%` (v1.0.0, line 257),
parameterised by the timestamp. -/
def dropinToken (ts : Nat) : Str :=
  strOf "%%dropin_" ++ natChars ts ++ strOf "%%"

theorem dropinToken_ne_nil (ts : Nat) : dropinToken ts ≠ [] := by
  simp [dropinToken, strOf]

/- ------------------------------------------------------------------ -/
/- Template substitution: `template.replace(/\{\{name}}/g, name)`     -/
/- ------------------------------------------------------------------ -/

/-- The literal placeholder matched by the regex `/\{\{name}}/g`. -/
def namePlaceholder : Str := strOf "\x7b\x7bname\x7d\x7d"

/-- ECMAScript `GetSubstitution` for a regex with no capture groups: in the
replacement string, `$$` yields `$`, `$&` the matched text, `$` + backquote
the part of the subject before the match, `$` + quote the part after it;
everything else (including `$` before any other character, digits included,
since there are no capture groups) is literal. -/
def expandDollar (matched before after : Str) : Str → Str
  | [] => []
  | [c] => [c]
  | c :: c2 :: t =>
    if c = '$' then
      if c2 = '$' then '$' :: expandDollar matched before after t
      else if c2 = '&' then matched ++ expandDollar matched before after t
      else if c2 = Char.ofNat 96 then before ++ expandDollar matched before after t
      else if c2 = Char.ofNat 39 then after ++ expandDollar matched before after t
      else '$' :: c2 :: expandDollar matched before after t
    else c :: expandDollar matched before after (c2 :: t)

/-- One left-to-right pass of `orig.replace(pat-as-regex with /g, rep)`:
`i` is the absolute index of the suffix inside `orig` (needed because the
`$`-escapes in `rep` refer to the whole subject string).  The first argument
is structural fuel; every step consumes at least one character, so fuel
equal to the suffix length is always sufficient. -/
def jsReplaceAllGo (orig pat rep : Str) : Nat → Nat → Str → Str
  | 0, _, _ => []
  | _ + 1, _, [] => []
  | fuel + 1, i, c :: rest =>
    if pat ≠ [] ∧ isPfx pat (c :: rest) = true then
      expandDollar pat (orig.take i) (orig.drop (i + pat.length)) rep
        ++ jsReplaceAllGo orig pat rep fuel (i + pat.length) (rest.drop (pat.length - 1))
    else
      c :: jsReplaceAllGo orig pat rep fuel (i + 1) rest

/-- JavaScript `s.replace(new RegExp(escape(pat), "g"), rep)` — what
`this.settings.noteTemplate.replace(/\{\{name}}/g, name)` performs
(v1.1.0 line 86, v1.0.0 line 286). -/
def jsReplaceAll (pat rep s : Str) : Str := jsReplaceAllGo s pat rep s.length 0 s

/-- Modelled from the spec: "content equal to the template string with every
occurrence of the literal placeholder token substituted by Name (simple
global text substitution ... no escaping)" (§4.4 step 3).  Plain
non-overlapping left-to-right replacement (same fuel discipline), used as
the reference point the code's substitution is compared with. -/
def specSimpleReplaceAllGo (pat rep : Str) : Nat → Str → Str
  | 0, _ => []
  | _ + 1, [] => []
  | fuel + 1, c :: rest =>
    if pat ≠ [] ∧ isPfx pat (c :: rest) = true then
      rep ++ specSimpleReplaceAllGo pat rep fuel (rest.drop (pat.length - 1))
    else
      c :: specSimpleReplaceAllGo pat rep fuel rest

def specSimpleReplaceAll (pat rep s : Str) : Str := specSimpleReplaceAllGo pat rep s.length s

theorem expandDollar_cons_ne (m b a : Str) {c : Char} (hc : c ≠ '$') (t : Str) :
    expandDollar m b a (c :: t) = c :: expandDollar m b a t := by
  cases t with
  | nil => rfl
  | cons c2 t' => simp [expandDollar, hc]

/-- A replacement string without `$` is substituted literally. -/
theorem expandDollar_no_dollar (m b a : Str) :
    ∀ rep : Str, '$' ∉ rep → expandDollar m b a rep = rep := by
  intro rep
  induction rep with
  | nil => intro _; rfl
  | cons c t ih =>
    intro h
    have hc : c ≠ '$' := by
      intro heq
      exact h (by simp [heq])
    have ht : '$' ∉ t := by
      intro hmem
      exact h (List.mem_cons_of_mem _ hmem)
    rw [expandDollar_cons_ne m b a hc, ih ht]

/-- Without `$` in the replacement, the JavaScript replacement coincides with
the spec's simple global substitution. -/
theorem jsReplaceAllGo_no_dollar (orig pat rep : Str) (hrep : '$' ∉ rep) :
    ∀ (fuel : Nat) (s : Str) (i : Nat),
      jsReplaceAllGo orig pat rep fuel i s = specSimpleReplaceAllGo pat rep fuel s := by
  intro fuel
  induction fuel with
  | zero => intro s i; rfl
  | succ fuel ih =>
    intro s i
    cases s with
    | nil => rfl
    | cons c rest =>
      show (if pat ≠ [] ∧ isPfx pat (c :: rest) = true then
              expandDollar pat (orig.take i) (orig.drop (i + pat.length)) rep
                ++ jsReplaceAllGo orig pat rep fuel (i + pat.length) (rest.drop (pat.length - 1))
            else c :: jsReplaceAllGo orig pat rep fuel (i + 1) rest)
          = _
      by_cases hp : pat ≠ [] ∧ isPfx pat (c :: rest) = true
      · rw [if_pos hp, expandDollar_no_dollar _ _ _ rep hrep,
          specSimpleReplaceAllGo, if_pos hp, ih]
      · rw [if_neg hp, specSimpleReplaceAllGo, if_neg hp, ih]

theorem jsReplaceAll_no_dollar (pat rep s : Str) (hrep : '$' ∉ rep) :
    jsReplaceAll pat rep s = specSimpleReplaceAll pat rep s :=
  jsReplaceAllGo_no_dollar s pat rep hrep s.length s 0

/- ------------------------------------------------------------------ -/
/- The vault (file/folder store, spec §6)                             -/
/- ------------------------------------------------------------------ -/

/-- An entry of the vault: a folder, or a file with its content.  Entries
are keyed by their path string. -/
inductive VEntry where
  | folder (path : Str)
  | file (path : Str) (content : Str)
deriving DecidableEq

def VEntry.path : VEntry → Str
  | .folder p => p
  | .file p _ => p

abbrev Vault := List VEntry

/-- `vault.getAbstractFileByPath(p)`: the entry stored at exactly path `p`,
if any. -/
def getAbstractFileByPath (v : Vault) (p : Str) : Option VEntry :=
  v.find? (fun e => e.path == p)

/-- `vault.createFolder(p)`: rejects when an entry already exists at `p` or
when a file-system failure is injected (`inject`), otherwise records the new
folder. -/
def createFolder (v : Vault) (p : Str) (inject : Bool) : Except Unit Vault :=
  if inject || (getAbstractFileByPath v p).isSome then Except.error ()
  else Except.ok (v ++ [VEntry.folder p])

/-- `vault.create(p, content)': rejects when an entry already exists at `p`
or when a file-system failure is injected, otherwise records the new file. -/
def createFile (v : Vault) (p : Str) (content : Str) (inject : Bool) : Except Unit Vault :=
  if inject || (getAbstractFileByPath v p).isSome then Except.error ()
  else Except.ok (v ++ [VEntry.file p content])

/-- Which file-system call, if any, the host fails on in a run. -/
inductive FsOutcome where
  | ok
  | folderFails
  | noteFails
deriving DecidableEq

theorem getAbstractFileByPath_append_none (v : Vault) (e : VEntry) (p : Str)
    (h1 : getAbstractFileByPath v p = none) (h2 : e.path ≠ p) :
    getAbstractFileByPath (v ++ [e]) p = none := by
  unfold getAbstractFileByPath at *
  induction v with
  | nil =>
    have hx : (e.path == p) = false := beq_eq_false_iff_ne.mpr h2
    simp [List.find?, hx]
  | cons x t ih =>
    simp only [List.find?] at h1 ⊢
    cases hx : (x.path == p) with
    | true => simp [hx] at h1
    | false =>
      rw [hx] at h1
      simpa [hx] using ih h1

/- ------------------------------------------------------------------ -/
/- Settings store (both variants, identical code)                     -/
/- ------------------------------------------------------------------ -/

/-- The plugin settings: one template string. -/
structure DropInNoteSettings where
  noteTemplate : Str
deriving DecidableEq

/-- `DEFAULT_SETTINGS` (v1.1.0 lines 38-40 / v1.0.0 lines 222-224). -/
def DEFAULT_SETTINGS : DropInNoteSettings :=
  { noteTemplate := strOf "# \x7b\x7bname\x7d\x7d\n" }

/-- The raw object returned by `loadData()`: possibly absent entirely
(first run), and possibly missing the `noteTemplate` field. -/
structure SettingsData where
  noteTemplate : Option Str
deriving DecidableEq

/-- `loadSettings()`: `Object.assign({}, DEFAULT_SETTINGS, await
this.loadData())` — fields present in the loaded data override the
defaults; an absent object or an absent field falls back to the default
(v1.1.0 lines 110-112 / v1.0.0 lines 340-346). -/
def loadSettings (data : Option SettingsData) : DropInNoteSettings :=
  match data with
  | none => DEFAULT_SETTINGS
  | some d =>
    match d.noteTemplate with
    | none => DEFAULT_SETTINGS
    | some t => { noteTemplate := t }

/-- `saveSettings()`: `saveData(this.settings)` persists the whole settings
object (v1.1.0 lines 114-116 / v1.0.0 lines 348-350). -/
def saveSettings (s : DropInNoteSettings) : SettingsData :=
  { noteTemplate := some s.noteTemplate }

/- ------------------------------------------------------------------ -/
/- The name-prompt modal (v1.0.0 lines 357-394; v1.1.0 is identical   -/
/- except for preventDefault/stopPropagation on the key events)        -/
/- ------------------------------------------------------------------ -/

/-- User interactions with the open modal: the Enter key (with the current
content of the input element), the Escape key, or dismissal by any other
means (clicking outside, the close button). -/
inductive ModalEvent where
  | enterKey (inputValue : Str)
  | escapeKey
  | outsideDismiss
deriving DecidableEq

/-- State of one `promptForName()` interaction: whether the wrapping promise
has been resolved (and with which value — `some none` is a resolution with
`undefined`), and whether the modal is still open. -/
structure ModalState where
  resolved : Option (Option Str)
  isOpen : Bool
deriving DecidableEq

/-- A JavaScript promise's `resolve`: only the first call settles it. -/
def resolveOnce (st : ModalState) (v : Option Str) : ModalState :=
  match st.resolved with
  | none => { st with resolved := some v }
  | some _ => st

/-- JavaScript whitespace trimmed by `String.prototype.trim` (the ASCII and
Latin-1 part; the remaining Unicode space class is not exercised here). -/
def isJsWhitespace (c : Char) : Bool :=
  c == ' ' || c == '\t' || c == '\n' || c == '\r' ||
    c == Char.ofNat 11 || c == Char.ofNat 12 || c == Char.ofNat 160

/-- `value.trim()`. -/
def jsTrim (s : Str) : Str :=
  ((s.dropWhile isJsWhitespace).reverse.dropWhile isJsWhitespace).reverse

/-- `submit()` (lines 385-389): trim the input, call
`onSubmit(value || undefined)`, then `close()`. -/
def modalSubmit (st : ModalState) (inputValue : Str) : ModalState :=
  let value := jsTrim inputValue
  let st' := resolveOnce st (if value = [] then none else some value)
  { st' with isOpen := false }

/-- The modal's reaction to one event (keydown handler, lines 372-382, plus
host-initiated dismissal).  Enter runs `submit()`; Escape and dismissal run
`close()`, whose only effect (`onClose`, lines 391-393) is emptying the
content element — the promise is not touched.  A closed modal receives no
further events. -/
def modalStep (st : ModalState) (ev : ModalEvent) : ModalState :=
  if st.isOpen then
    match ev with
    | .enterKey v => modalSubmit st v
    | .escapeKey => { st with isOpen := false }
    | .outsideDismiss => { st with isOpen := false }
  else st

/-- The state of a fresh `promptForName()` interaction after a sequence of
user events. -/
def runModal (evs : List ModalEvent) : ModalState :=
  evs.foldl modalStep { resolved := none, isOpen := true }

/- ------------------------------------------------------------------ -/
/- Notices                                                            -/
/- ------------------------------------------------------------------ -/

/-- `new Notice(...)` text on the pre-existing-folder guard (v1.1.0 line 78 /
v1.0.0 lines 276-278). -/
def folderExistsNotice (name : Str) : Str :=
  strOf "Folder \"" ++ name ++ strOf "\" already exists – nothing created."

/-- `new Notice(...)` text in the catch branch (v1.1.0 line 98 / v1.0.0
lines 313-315). -/
def errorNotice : Str :=
  strOf "Unable to create folder/note – see console for details."

/-- `new Notice(...)` text when v1.1.0 finds no active editor (line 94). -/
def noEditorNotice : Str :=
  strOf "No active editor to insert the link into."

/- ------------------------------------------------------------------ -/
/- The v1.0.0 command flow (src/main.ts lines 255-338)                -/
/- ------------------------------------------------------------------ -/

/-- The `TFile` context the editor-check callback hands to the command:
`file.path` and `file.parent?.path` (absent when the file has no parent). -/
structure FileCtx where
  path : Str
  parentPath : Option Str
deriving DecidableEq

/-- Observable outcome of one v1.0.0 command run: final editor state, final
vault, the notices shown, and whether an error was logged to the console. -/
structure Result where
  editor : Editor
  vault : Vault
  notices : List Str
  logged : Bool
deriving DecidableEq

/-- `removeToken(editor, token)` (v1.0.0 lines 324-332): delete the first
occurrence of the token from the document, if there is one. -/
def removeToken (ed : Editor) (token : Str) : Editor :=
  match firstIndexOf token ed.doc with
  | none => ed
  | some idx =>
    Editor.replaceRange ed []
      (offsetToPos ed.doc idx) (offsetToPos ed.doc (idx + token.length))

/-- Step 4 of the success path (v1.0.0 lines 296-310): locate the token; if
absent, fall back to `replaceSelection(link)`; otherwise replace exactly the
token range with the link and put the caret right after it. -/
def successInsert (ed : Editor) (token link : Str) : Editor :=
  match firstIndexOf token ed.doc with
  | none => ed.replaceSelection link
  | some idx =>
    let fr := offsetToPos ed.doc idx
    let upTo := offsetToPos ed.doc (idx + token.length)
    let ed1 := ed.replaceRange link fr upTo
    ed1.setCursor ⟨fr.line, fr.ch + link.length⟩

/-- `const baseDir = file.parent?.path ?? ""` together with
`normalizePath(baseDir ? baseDir/name : name)` (v1.0.0 lines 270-271).
`np` is the host's `normalizePath`, kept abstract. -/
def computedFolderPath (np : Str → Str) (file : FileCtx) (name : Str) : Str :=
  let baseDir := file.parentPath.getD []
  np (if baseDir ≠ [] then baseDir ++ strOf "/" ++ name else name)

/-- `normalizePath(folderPath/name.md)` (v1.0.0 line 272). -/
def computedNotePath (np : Str → Str) (file : FileCtx) (name : Str) : Str :=
  np (computedFolderPath np file name ++ strOf "/" ++ name ++ strOf ".md")

/-- Lines 256-258 of v1.0.0: generate the caret token and replace the
current selection with it.  This is everything the command does before
suspending on the name prompt. -/
def beginCommand (ed : Editor) (ts : Nat) : Editor :=
  ed.replaceSelection (dropinToken ts)

/-- The rest of `createFolderNote` (v1.0.0 lines 260-318), resumed after the
prompt settles.  `np` is the host's `normalizePath`, `genLink` the host's
`fileManager.generateMarkdownLink` applied to the note path and the current
file's path; `ed` is the live editor state at resume time (the document may
have been edited during the prompt); `rawName` the prompt result (`none`
when it resolved with `undefined`); `fs` injects a host failure into one of
the two vault calls. -/
def resumeCommand (np : Str → Str) (genLink : Str → Str → Str)
    (settings : DropInNoteSettings) (vault : Vault) (file : FileCtx)
    (token : Str) (ed : Editor) (rawName : Option Str) (fs : FsOutcome) : Result :=
  match rawName with
  | none => { editor := removeToken ed token, vault := vault, notices := [], logged := false }
  | some rawName =>
    let name := np rawName
    let folderPath := computedFolderPath np file name
    let notePath := computedNotePath np file name
    if (getAbstractFileByPath vault folderPath).isSome then
      { editor := removeToken ed token, vault := vault,
        notices := [folderExistsNotice name], logged := false }
    else
      match createFolder vault folderPath (fs = FsOutcome.folderFails) with
      | .error _ =>
        { editor := removeToken ed token, vault := vault,
          notices := [errorNotice], logged := true }
      | .ok v1 =>
        match createFile v1 notePath
            (jsReplaceAll namePlaceholder name settings.noteTemplate)
            (fs = FsOutcome.noteFails) with
        | .error _ =>
          { editor := removeToken ed token, vault := v1,
            notices := [errorNotice], logged := true }
        | .ok v2 =>
          let link := genLink notePath file.path
          { editor := successInsert ed token link, vault := v2,
            notices := [], logged := false }

/-- The v1.0.0 command registration (lines 237-245): the editor check
callback is enabled exactly when the view has a file; with `checking` set it
does nothing, otherwise it runs the command (`run` stands for
`createFolderNote` applied to the live context). -/
def editorCheckCallback {α : Type} (run : α → α) (checking : Bool)
    (file : Option FileCtx) (st : α) : Bool × α :=
  match file with
  | some _ => (true, if checking then st else run st)
  | none => (false, st)

/- ------------------------------------------------------------------ -/
/- The v1.1.0 command flow (src/main.ts lines 67-100)                 -/
/- ------------------------------------------------------------------ -/

/-- `const folderPath = `$\x7bname\x7d/`` (v1.1.0 line 72). -/
def folderPath_v110 (name : Str) : Str := name ++ strOf "/"

/-- `const notePath = `$\x7bfolderPath\x7d$\x7bname\x7d.md`` (v1.1.0 line 73). -/
def notePath_v110 (name : Str) : Str := folderPath_v110 name ++ name ++ strOf ".md"

/-- Observable outcome of one v1.1.0 command run.  The editor is optional:
v1.1.0 registers a plain `callback` and only looks for an active editor
when inserting the link. -/
structure Result110 where
  vault : Vault
  editor : Option Editor
  notices : List Str
  logged : Bool
deriving DecidableEq

/-- `createFolderNote` of v1.1.0 (lines 67-100): no caret token, paths
rooted at the vault, link text built by hand as `[name](notePath)`. -/
def createFolderNote_v110 (settings : DropInNoteSettings) (vault : Vault)
    (ed : Option Editor) (name? : Option Str) (fs : FsOutcome) : Result110 :=
  match name? with
  | none => { vault := vault, editor := ed, notices := [], logged := false }
  | some name =>
    let folderPath := folderPath_v110 name
    let notePath := notePath_v110 name
    if (getAbstractFileByPath vault folderPath).isSome then
      { vault := vault, editor := ed,
        notices := [folderExistsNotice name], logged := false }
    else
      match createFolder vault folderPath (fs = FsOutcome.folderFails) with
      | .error _ =>
        { vault := vault, editor := ed, notices := [errorNotice], logged := true }
      | .ok v1 =>
        match createFile v1 notePath
            (jsReplaceAll namePlaceholder name settings.noteTemplate)
            (fs = FsOutcome.noteFails) with
        | .error _ =>
          { vault := v1, editor := ed, notices := [errorNotice], logged := true }
        | .ok v2 =>
          match ed with
          | some e =>
            { vault := v2,
              editor := some (e.replaceSelection
                (strOf "[" ++ name ++ strOf "](" ++ notePath ++ strOf ")")),
              notices := [], logged := false }
          | none =>
            { vault := v2, editor := none, notices := [noEditorNotice], logged := false }

/- ------------------------------------------------------------------ -/
/- Spec-side path formulas (for the §3 path invariant)                -/
/- ------------------------------------------------------------------ -/

def stripTrailingSlash (p : Str) : Str :=
  if p.getLast? = some '/' then p.dropLast else p

/-- Modelled from the spec: the basename of a folder path — the segment
after the last `/`, a trailing separator ignored. -/
def folderBasename (p : Str) : Str :=
  ((stripTrailingSlash p).reverse.takeWhile (fun c => c ≠ '/')).reverse

/-- Modelled from the spec: "the note always lives at
`<folder>/<folder-basename>.md`" (§3). -/
def specNoteForFolder (folderPath : Str) : Str :=
  stripTrailingSlash folderPath ++ strOf "/" ++ folderBasename folderPath ++ strOf ".md"

/- ------------------------------------------------------------------ -/
/- Path lemmas about the v1.0.0 flow                                  -/
/- ------------------------------------------------------------------ -/

theorem removeToken_not_found (ed : Editor) (tok : Str)
    (h : firstIndexOf tok ed.doc = none) : removeToken ed tok = ed := by
  simp [removeToken, h]

theorem removeToken_found (ed : Editor) (tok : Str) (idx : Nat)
    (hfi : firstIndexOf tok ed.doc = some idx)
    (hb : idx + tok.length ≤ ed.doc.length) :
    removeToken ed tok =
      { ed with doc := ed.doc.take idx ++ ed.doc.drop (idx + tok.length) } := by
  unfold removeToken
  rw [hfi]
  dsimp only [Editor.replaceRange]
  rw [posToOffset_offsetToPos ed.doc idx (by omega),
    posToOffset_offsetToPos ed.doc (idx + tok.length) hb]
  simp

/-- Decomposition of the document at a located token occurrence. -/
theorem doc_decomposition (doc tok : Str) (idx : Nat)
    (hocc : isPfx tok (doc.drop idx) = true) :
    doc = doc.take idx ++ tok ++ doc.drop (idx + tok.length) := by
  have h1 : doc.drop idx = tok ++ (doc.drop idx).drop tok.length :=
    isPfx_decompose tok (doc.drop idx) hocc
  have h2 : (doc.drop idx).drop tok.length = doc.drop (idx + tok.length) := by
    rw [List.drop_drop]
  calc doc = doc.take idx ++ doc.drop idx := (List.take_append_drop idx doc).symm
    _ = doc.take idx ++ (tok ++ (doc.drop idx).drop tok.length) := by rw [← h1]
    _ = doc.take idx ++ tok ++ doc.drop (idx + tok.length) := by
        rw [h2, List.append_assoc]

theorem successInsert_found (ed : Editor) (tok link : Str) (idx : Nat)
    (htok : tok ≠ [])
    (hfi : firstIndexOf tok ed.doc = some idx) :
    successInsert ed tok link =
      { doc := ed.doc.take idx ++ link ++ ed.doc.drop (idx + tok.length),
        selA := idx + link.length,
        selB := idx + link.length } := by
  have hocc := firstIndexOf_some_occurs tok ed.doc idx hfi
  have hb := firstIndexOf_some_bound tok ed.doc idx htok hfi
  have hdoc := doc_decomposition ed.doc tok idx hocc
  have hpre : (ed.doc.take idx).length = idx := by
    rw [List.length_take]
    omega
  have hcursor :
      posToOffset (ed.doc.take idx ++ link ++ ed.doc.drop (idx + tok.length))
        ⟨(offsetToPos ed.doc idx).line, (offsetToPos ed.doc idx).ch + link.length⟩
      = idx + link.length := by
    conv_lhs =>
      rw [show offsetToPos ed.doc idx
            = offsetToPos (ed.doc.take idx ++ tok ++ ed.doc.drop (idx + tok.length))
                (ed.doc.take idx).length by rw [← hdoc, hpre]]
    rw [cursor_after_link (ed.doc.take idx) tok link (ed.doc.drop (idx + tok.length)), hpre]
  unfold successInsert
  rw [hfi]
  dsimp only [Editor.replaceRange, Editor.setCursor]
  rw [posToOffset_offsetToPos ed.doc idx (by omega),
    posToOffset_offsetToPos ed.doc (idx + tok.length) hb]
  rw [hcursor]

theorem successInsert_not_found (ed : Editor) (tok link : Str)
    (h : firstIndexOf tok ed.doc = none) :
    successInsert ed tok link = ed.replaceSelection link := by
  simp [successInsert, h]

theorem resume_none_eq (np : Str → Str) (genLink : Str → Str → Str)
    (settings : DropInNoteSettings) (vault : Vault) (file : FileCtx)
    (token : Str) (ed : Editor) (fs : FsOutcome) :
    resumeCommand np genLink settings vault file token ed none fs
      = { editor := removeToken ed token, vault := vault, notices := [], logged := false } :=
  rfl

theorem resume_collision_eq (np : Str → Str) (genLink : Str → Str → Str)
    (settings : DropInNoteSettings) (vault : Vault) (file : FileCtx)
    (token : Str) (ed : Editor) (rawName : Str) (fs : FsOutcome)
    (hcol : (getAbstractFileByPath vault (computedFolderPath np file (np rawName))).isSome = true) :
    resumeCommand np genLink settings vault file token ed (some rawName) fs
      = { editor := removeToken ed token, vault := vault,
          notices := [folderExistsNotice (np rawName)], logged := false } := by
  simp [resumeCommand, hcol]

theorem resume_folderFail_eq (np : Str → Str) (genLink : Str → Str → Str)
    (settings : DropInNoteSettings) (vault : Vault) (file : FileCtx)
    (token : Str) (ed : Editor) (rawName : Str)
    (hcol : getAbstractFileByPath vault (computedFolderPath np file (np rawName)) = none) :
    resumeCommand np genLink settings vault file token ed (some rawName) FsOutcome.folderFails
      = { editor := removeToken ed token, vault := vault,
          notices := [errorNotice], logged := true } := by
  simp [resumeCommand, hcol, createFolder]

theorem resume_noteFail_eq (np : Str → Str) (genLink : Str → Str → Str)
    (settings : DropInNoteSettings) (vault : Vault) (file : FileCtx)
    (token : Str) (ed : Editor) (rawName : Str)
    (hcol : getAbstractFileByPath vault (computedFolderPath np file (np rawName)) = none) :
    resumeCommand np genLink settings vault file token ed (some rawName) FsOutcome.noteFails
      = { editor := removeToken ed token,
          vault := vault ++ [VEntry.folder (computedFolderPath np file (np rawName))],
          notices := [errorNotice], logged := true } := by
  simp [resumeCommand, hcol, createFolder, createFile]

theorem resume_success_eq (np : Str → Str) (genLink : Str → Str → Str)
    (settings : DropInNoteSettings) (vault : Vault) (file : FileCtx)
    (token : Str) (ed : Editor) (rawName : Str)
    (hcol : getAbstractFileByPath vault (computedFolderPath np file (np rawName)) = none)
    (hcol2 : getAbstractFileByPath vault (computedNotePath np file (np rawName)) = none)
    (hne : computedFolderPath np file (np rawName) ≠ computedNotePath np file (np rawName)) :
    resumeCommand np genLink settings vault file token ed (some rawName) FsOutcome.ok
      = { editor := successInsert ed token
            (genLink (computedNotePath np file (np rawName)) file.path),
          vault := vault
            ++ [VEntry.folder (computedFolderPath np file (np rawName))]
            ++ [VEntry.file (computedNotePath np file (np rawName))
                  (jsReplaceAll namePlaceholder (np rawName) settings.noteTemplate)],
          notices := [], logged := false } := by
  have hcol2' : getAbstractFileByPath
      (vault ++ [VEntry.folder (computedFolderPath np file (np rawName))])
      (computedNotePath np file (np rawName)) = none :=
    getAbstractFileByPath_append_none _ _ _ hcol2 hne
  simp [resumeCommand, hcol, hcol2', createFolder, createFile]

/- ------------------------------------------------------------------ -/
/- Auxiliary facts for the claim theorems                             -/
/- ------------------------------------------------------------------ -/

theorem takeWhile_ne_of_not_mem :
    ∀ l : Str, '/' ∉ l → l.takeWhile (fun c => c ≠ '/') = l := by
  intro l
  induction l with
  | nil => intro _; rfl
  | cons c t ih =>
    intro h
    have hc : c ≠ '/' := fun heq => h (by simp [heq])
    have ht : '/' ∉ t := fun hm => h (List.mem_cons_of_mem _ hm)
    have step : List.takeWhile (fun c => decide (c ≠ '/')) (c :: t)
        = c :: List.takeWhile (fun c => decide (c ≠ '/')) t := by
      simp [List.takeWhile_cons, hc]
    rw [step, ih ht]

theorem folderPath_ne_notePath_v110 (name : Str) :
    folderPath_v110 name ≠ notePath_v110 name := by
  intro h
  have hlen := congrArg List.length h
  rw [notePath_v110] at hlen
  simp only [List.length_append] at hlen
  have h3 : (strOf ".md").length = 3 := rfl
  omega

theorem splice_take (pre mid post : Str) (n : Nat) (h : pre.length = n) :
    (pre ++ mid ++ post).take n = pre := by
  subst h
  rw [List.append_assoc]
  exact take_length_append pre (mid ++ post)

theorem splice_drop (pre mid post : Str) (n : Nat) (h : pre.length = n) :
    (pre ++ mid ++ post).drop (n + mid.length) = post := by
  subst h
  rw [← List.length_append pre mid]
  exact drop_length_append (pre ++ mid) post

/-- Removing the caret token right after it was inserted restores the
document around the (deleted) selection: the result is the original document
with the previously selected span cut out. -/
theorem removeToken_after_begin (ed0 : Editor) (ts : Nat)
    (hsel : ed0.selA ≤ ed0.selB ∧ ed0.selB ≤ ed0.doc.length)
    (hfi : firstIndexOf (dropinToken ts) (beginCommand ed0 ts).doc = some ed0.selA) :
    removeToken (beginCommand ed0 ts) (dropinToken ts)
      = { doc := ed0.doc.take ed0.selA ++ ed0.doc.drop ed0.selB,
          selA := ed0.selA + (dropinToken ts).length,
          selB := ed0.selA + (dropinToken ts).length } := by
  have hpre : (ed0.doc.take ed0.selA).length = ed0.selA := by
    rw [List.length_take]
    omega
  have hb : ed0.selA + (dropinToken ts).length ≤ (beginCommand ed0 ts).doc.length := by
    show ed0.selA + (dropinToken ts).length
      ≤ (ed0.doc.take ed0.selA ++ dropinToken ts ++ ed0.doc.drop ed0.selB).length
    simp only [List.length_append, hpre]
    omega
  rw [removeToken_found (beginCommand ed0 ts) (dropinToken ts) ed0.selA hfi hb]
  show ({ doc := (ed0.doc.take ed0.selA ++ dropinToken ts ++ ed0.doc.drop ed0.selB).take ed0.selA
            ++ (ed0.doc.take ed0.selA ++ dropinToken ts ++ ed0.doc.drop ed0.selB).drop
                (ed0.selA + (dropinToken ts).length),
          selA := ed0.selA + (dropinToken ts).length,
          selB := ed0.selA + (dropinToken ts).length } : Editor) = _
  rw [splice_take _ _ _ _ hpre, splice_drop _ _ _ _ hpre]

/- ------------------------------------------------------------------ -/
/- Claim theorems                                                     -/
/- ------------------------------------------------------------------ -/

/-- Claim C1, counterexample: with the default template and the non-empty,
trimmed, non-colliding name `$&`, the v1.1.0 command creates the note with
content `# \x7b\x7bname\x7d\x7d\n` — ECMAScript replacement semantics make
`$&` reproduce the matched placeholder — while the claim's "simple global
substitution, no escaping" requires `# $&\n`. -/
theorem C1_counterexample :
    (createFolderNote_v110 DEFAULT_SETTINGS [] (some ⟨[], 0, 0⟩)
        (some (strOf "$&")) FsOutcome.ok).vault
      = [VEntry.folder (strOf "$&/"),
         VEntry.file (strOf "$&/$&.md") (strOf "# \x7b\x7bname\x7d\x7d\n")]
    ∧ specSimpleReplaceAll namePlaceholder (strOf "$&") DEFAULT_SETTINGS.noteTemplate
      = strOf "# $&\n"
    ∧ strOf "# \x7b\x7bname\x7d\x7d\n" ≠ strOf "# $&\n" := by
  decide

/-- Claim C1 as amended: for every non-empty trimmed name N with no
pre-existing vault entry at the computed folder path or note path, the
v1.1.0 command creates exactly one folder at `N/` and exactly one note at
`N/N.md` whose content is the settings template with every occurrence of
the literal placeholder substituted according to the ECMAScript replacement
rules for N (`$$`, `$&`, `$`-backquote and `$`-quote are escapes), and
inserts the markdown link `[N](N/N.md)` at the current selection; when N
contains no `$` at all, the content is exactly the claimed simple global
substitution of N. -/
theorem C1_amended_creation (settings : DropInNoteSettings) (vault : Vault)
    (ed : Editor) (name : Str)
    (_hname : name ≠ [])
    (hcol : getAbstractFileByPath vault (folderPath_v110 name) = none)
    (hcol2 : getAbstractFileByPath vault (notePath_v110 name) = none) :
    createFolderNote_v110 settings vault (some ed) (some name) FsOutcome.ok
      = { vault := vault
            ++ [VEntry.folder (folderPath_v110 name)]
            ++ [VEntry.file (notePath_v110 name)
                  (jsReplaceAll namePlaceholder name settings.noteTemplate)],
          editor := some (ed.replaceSelection
            (strOf "[" ++ name ++ strOf "](" ++ notePath_v110 name ++ strOf ")")),
          notices := [], logged := false }
    ∧ ('$' ∉ name → jsReplaceAll namePlaceholder name settings.noteTemplate
          = specSimpleReplaceAll namePlaceholder name settings.noteTemplate) := by
  have hne : (VEntry.folder (folderPath_v110 name)).path ≠ notePath_v110 name :=
    folderPath_ne_notePath_v110 name
  have hcol2' : getAbstractFileByPath
      (vault ++ [VEntry.folder (folderPath_v110 name)]) (notePath_v110 name) = none :=
    getAbstractFileByPath_append_none _ _ _ hcol2 hne
  refine ⟨?_, fun hd => jsReplaceAll_no_dollar _ _ _ hd⟩
  simp [createFolderNote_v110, hcol, hcol2', createFolder, createFile]

/-- Claim C1 witness: the amended theorem evaluated at the concrete name
`n`, an empty vault, an empty document and the default template. -/
theorem C1_witness :
    createFolderNote_v110 DEFAULT_SETTINGS [] (some ⟨[], 0, 0⟩)
        (some (strOf "n")) FsOutcome.ok
      = { vault := []
            ++ [VEntry.folder (folderPath_v110 (strOf "n"))]
            ++ [VEntry.file (notePath_v110 (strOf "n"))
                  (jsReplaceAll namePlaceholder (strOf "n") DEFAULT_SETTINGS.noteTemplate)],
          editor := some (Editor.replaceSelection ⟨[], 0, 0⟩
            (strOf "[" ++ strOf "n" ++ strOf "](" ++ notePath_v110 (strOf "n") ++ strOf ")")),
          notices := [], logged := false }
    ∧ ('$' ∉ strOf "n" →
        jsReplaceAll namePlaceholder (strOf "n") DEFAULT_SETTINGS.noteTemplate
          = specSimpleReplaceAll namePlaceholder (strOf "n") DEFAULT_SETTINGS.noteTemplate) :=
  C1_amended_creation DEFAULT_SETTINGS [] ⟨[], 0, 0⟩ (strOf "n")
    (by decide) (by decide) (by decide)

/-- Claim C3 (the code evaluated at the failing input): pressing Escape, or
dismissing the modal without confirming, closes it but never resolves the
prompt promise — `onSubmit` is invoked only from `submit()`, i.e. on Enter
— whereas the claim requires a resolution with "no value".  Enter does
resolve with the trimmed input, or with no value when the trimmed input is
empty, and the resolution happens at most once. -/
theorem C3_escape_never_resolves :
    (runModal [ModalEvent.escapeKey]).resolved = none
    ∧ (runModal [ModalEvent.escapeKey]).isOpen = false
    ∧ (runModal [ModalEvent.outsideDismiss]).resolved = none
    ∧ (runModal [ModalEvent.enterKey (strOf "  Project X ")]).resolved
        = some (some (strOf "Project X"))
    ∧ (runModal [ModalEvent.enterKey (strOf "   ")]).resolved = some none
    ∧ (runModal [ModalEvent.enterKey (strOf "a"), ModalEvent.enterKey (strOf "b"),
        ModalEvent.escapeKey]).resolved = some (some (strOf "a")) := by
  decide

/-- Claim C7, counterexample: for the collected name `a/b` (names may
contain path separators — spec §9 documents that nothing is sanitised), the
v1.1.0 note path is `a/b/a/b.md` while the claimed invariant
`<folder>/<folder-basename>.md` yields `a/b/b.md`; the computed folder path
also carries a trailing separator, unlike the claimed `<base>/<name>`. -/
theorem C7_counterexample :
    notePath_v110 (strOf "a/b") = strOf "a/b/a/b.md"
    ∧ specNoteForFolder (folderPath_v110 (strOf "a/b")) = strOf "a/b/b.md"
    ∧ notePath_v110 (strOf "a/b") ≠ specNoteForFolder (folderPath_v110 (strOf "a/b"))
    ∧ folderPath_v110 (strOf "x") ≠ strOf "x" := by
  decide

/-- Claim C7 as amended: in the v1.1.0 variant (base = vault root) the
computed folder path is `<name>/` — the name followed by a trailing
separator — and the note path is `<name>/<name>.md`; for collected names
that contain no `/` the note path satisfies the spec's
`<folder>/<folder-basename>.md` invariant, which fails for names containing
a separator. -/
theorem C7_amended_paths (name : Str) (_hname : name ≠ []) (hslash : '/' ∉ name) :
    folderPath_v110 name = name ++ strOf "/"
    ∧ notePath_v110 name = name ++ strOf "/" ++ name ++ strOf ".md"
    ∧ notePath_v110 name = specNoteForFolder (folderPath_v110 name) := by
  refine ⟨rfl, rfl, ?_⟩
  have hstrip : stripTrailingSlash (folderPath_v110 name) = name := by
    unfold stripTrailingSlash folderPath_v110
    rw [show strOf "/" = ['/'] from rfl, List.getLast?_concat]
    rw [if_pos rfl, List.dropLast_concat]
  have hbase : folderBasename (folderPath_v110 name) = name := by
    unfold folderBasename
    rw [hstrip, takeWhile_ne_of_not_mem name.reverse (by simpa using hslash),
      List.reverse_reverse]
  unfold specNoteForFolder
  rw [hstrip, hbase]
  rfl

/-- Claim C7 witness: the amended theorem evaluated at the concrete
separator-free name `x`. -/
theorem C7_witness :
    folderPath_v110 (strOf "x") = strOf "x" ++ strOf "/"
    ∧ notePath_v110 (strOf "x") = strOf "x" ++ strOf "/" ++ strOf "x" ++ strOf ".md"
    ∧ notePath_v110 (strOf "x") = specNoteForFolder (folderPath_v110 (strOf "x")) :=
  C7_amended_paths (strOf "x") (by decide) (by decide)

/-- Claim C8: saving the settings with template T and then loading yields
exactly T (even for an empty template); loading succeeds with the default
template `# \x7b\x7bname\x7d\x7d\n` when no settings object was ever stored
(first run) and when the stored object lacks the field. -/
theorem C8_settings_roundtrip :
    (∀ T : Str, loadSettings (some (saveSettings ⟨T⟩)) = ⟨T⟩)
    ∧ loadSettings none = ⟨strOf "# \x7b\x7bname\x7d\x7d\n"⟩
    ∧ loadSettings (some ⟨none⟩) = ⟨strOf "# \x7b\x7bname\x7d\x7d\n"⟩ := by
  exact ⟨fun T => rfl, rfl, rfl⟩

/-- Claim C9, counterexample: the v1.1.0 variant registers its command with
a plain `callback`, so the command runs even with no editor context — and
it still creates the folder and the note, merely replacing the link
insertion by a notice.  This contradicts "the command cannot run
(disabled rather than performing any mutation)". -/
theorem C9_counterexample :
    (createFolderNote_v110 DEFAULT_SETTINGS [] none (some (strOf "x")) FsOutcome.ok).vault
      = [VEntry.folder (strOf "x/"), VEntry.file (strOf "x/x.md") (strOf "# x\n")]
    ∧ (createFolderNote_v110 DEFAULT_SETTINGS [] none (some (strOf "x")) FsOutcome.ok).notices
      = [noEditorNotice] := by
  decide

/-- Claim C9 as amended: in the v1.0.0 variant, the registered editor
check callback reports the command as unavailable and performs no action
when the view has no file, and an availability check (`checking = true`)
never runs the command; the v1.1.0 variant is always invocable and, with
no editor, still creates the folder and note (see the counterexample). -/
theorem C9_amended_enablement :
    ∀ (α : Type) (run : α → α) (st : α),
      (∀ checking : Bool, editorCheckCallback run checking none st = (false, st))
      ∧ (∀ file : Option FileCtx, (editorCheckCallback run true file st).2 = st) := by
  intro α run st
  refine ⟨fun checking => rfl, fun file => ?_⟩
  cases file <;> rfl

/-- Claim C2, counterexample: with a non-empty selection (document `abc`,
selection covering `ab`), a colliding name leaves the document as `c`, not
byte-identical to `abc` — `replaceSelection(token)` destroyed the selected
text and the abort path only deletes the token.  Nothing is created and the
notice is shown, as claimed. -/
theorem C2_counterexample :
    (resumeCommand (fun s => s) (fun _ _ => []) DEFAULT_SETTINGS
        [VEntry.folder (strOf "x")] ⟨strOf "f.md", none⟩ (dropinToken 7)
        (beginCommand ⟨strOf "abc", 0, 2⟩ 7) (some (strOf "x")) FsOutcome.ok).editor.doc
      = strOf "c"
    ∧ strOf "c" ≠ strOf "abc"
    ∧ (resumeCommand (fun s => s) (fun _ _ => []) DEFAULT_SETTINGS
        [VEntry.folder (strOf "x")] ⟨strOf "f.md", none⟩ (dropinToken 7)
        (beginCommand ⟨strOf "abc", 0, 2⟩ 7) (some (strOf "x")) FsOutcome.ok).vault
      = [VEntry.folder (strOf "x")] := by
  decide

/-- Claim C2 as amended: when an entry already exists at the computed folder
path, the command mutates nothing in the vault, shows the collision notice,
logs no error, and removes the caret token; the final document is the
original one with the initially selected span deleted — byte-identical to
the pre-command state exactly when the initial selection was empty (a bare
caret).  Hypotheses: a well-formed selection, and the freshly generated
token's first occurrence in the suspended document being the inserted one
(the spec's token-uniqueness assumption, §3). -/
theorem C2_amended_collision (np : Str → Str) (genLink : Str → Str → Str)
    (settings : DropInNoteSettings) (vault : Vault) (file : FileCtx)
    (ts : Nat) (ed0 : Editor) (rawName : Str) (fs : FsOutcome)
    (hsel : ed0.selA ≤ ed0.selB ∧ ed0.selB ≤ ed0.doc.length)
    (hfi : firstIndexOf (dropinToken ts) (beginCommand ed0 ts).doc = some ed0.selA)
    (habs : firstIndexOf (dropinToken ts)
      (ed0.doc.take ed0.selA ++ ed0.doc.drop ed0.selB) = none)
    (hcol : (getAbstractFileByPath vault
      (computedFolderPath np file (np rawName))).isSome = true) :
    (resumeCommand np genLink settings vault file (dropinToken ts)
        (beginCommand ed0 ts) (some rawName) fs).vault = vault
    ∧ (resumeCommand np genLink settings vault file (dropinToken ts)
        (beginCommand ed0 ts) (some rawName) fs).notices
        = [folderExistsNotice (np rawName)]
    ∧ (resumeCommand np genLink settings vault file (dropinToken ts)
        (beginCommand ed0 ts) (some rawName) fs).logged = false
    ∧ (resumeCommand np genLink settings vault file (dropinToken ts)
        (beginCommand ed0 ts) (some rawName) fs).editor.doc
        = ed0.doc.take ed0.selA ++ ed0.doc.drop ed0.selB
    ∧ firstIndexOf (dropinToken ts)
        (resumeCommand np genLink settings vault file (dropinToken ts)
          (beginCommand ed0 ts) (some rawName) fs).editor.doc = none
    ∧ (ed0.selA = ed0.selB →
        (resumeCommand np genLink settings vault file (dropinToken ts)
          (beginCommand ed0 ts) (some rawName) fs).editor.doc = ed0.doc) := by
  have he := resume_collision_eq np genLink settings vault file (dropinToken ts)
    (beginCommand ed0 ts) rawName fs hcol
  have hrem := removeToken_after_begin ed0 ts hsel hfi
  have hdoc : (resumeCommand np genLink settings vault file (dropinToken ts)
      (beginCommand ed0 ts) (some rawName) fs).editor.doc
      = ed0.doc.take ed0.selA ++ ed0.doc.drop ed0.selB := by
    rw [he]
    show (removeToken (beginCommand ed0 ts) (dropinToken ts)).doc = _
    rw [hrem]
  refine ⟨by rw [he], by rw [he], by rw [he], hdoc, by rw [hdoc]; exact habs, ?_⟩
  intro hab
  rw [hdoc, hab]
  exact List.take_append_drop _ _

/-- Claim C2 witness: the amended theorem at an empty selection (caret at
offset 1 of `ab`) and a colliding vault entry; the final document is
byte-identical to the original. -/
theorem C2_witness :
    (resumeCommand (fun s => s) (fun _ _ => []) DEFAULT_SETTINGS
        [VEntry.folder (strOf "n")] ⟨strOf "f.md", none⟩ (dropinToken 7)
        (beginCommand ⟨strOf "ab", 1, 1⟩ 7) (some (strOf "n")) FsOutcome.ok).vault
      = [VEntry.folder (strOf "n")]
    ∧ (resumeCommand (fun s => s) (fun _ _ => []) DEFAULT_SETTINGS
        [VEntry.folder (strOf "n")] ⟨strOf "f.md", none⟩ (dropinToken 7)
        (beginCommand ⟨strOf "ab", 1, 1⟩ 7) (some (strOf "n")) FsOutcome.ok).editor.doc
      = (⟨strOf "ab", 1, 1⟩ : Editor).doc := by
  have h := C2_amended_collision (fun s => s) (fun _ _ => []) DEFAULT_SETTINGS
    [VEntry.folder (strOf "n")] ⟨strOf "f.md", none⟩ 7 ⟨strOf "ab", 1, 1⟩
    (strOf "n") FsOutcome.ok (by decide) (by decide) (by decide) (by decide)
  exact ⟨h.1, h.2.2.2.2.2 rfl⟩

/-- Claim C4: on invocation the current selection is replaced by the caret
token before the prompt is shown (conjunct 1), and the token is absent from
the final document on every enumerated completion: the empty-name abort,
the pre-existing-folder abort, both file-system-failure aborts, and the
success path.  Hypotheses formalise the spec's token-uniqueness assumption
(§3: the timestamped token "must not collide with real document content"):
the suspended document contains the token first at the insertion offset,
and token-free text stays token-free after the splice. -/
theorem C4_token_lifecycle (np : Str → Str) (genLink : Str → Str → Str)
    (settings : DropInNoteSettings) (file : FileCtx) (ts : Nat)
    (ed0 : Editor) (rawName : Str)
    (hsel : ed0.selA ≤ ed0.selB ∧ ed0.selB ≤ ed0.doc.length)
    (hfi : firstIndexOf (dropinToken ts) (beginCommand ed0 ts).doc = some ed0.selA)
    (habs : firstIndexOf (dropinToken ts)
      (ed0.doc.take ed0.selA ++ ed0.doc.drop ed0.selB) = none) :
    (beginCommand ed0 ts).doc
      = ed0.doc.take ed0.selA ++ dropinToken ts ++ ed0.doc.drop ed0.selB
    ∧ (∀ (vault : Vault) (fs : FsOutcome),
        firstIndexOf (dropinToken ts)
          (resumeCommand np genLink settings vault file (dropinToken ts)
            (beginCommand ed0 ts) none fs).editor.doc = none)
    ∧ (∀ (vault : Vault) (fs : FsOutcome),
        (getAbstractFileByPath vault
          (computedFolderPath np file (np rawName))).isSome = true →
        firstIndexOf (dropinToken ts)
          (resumeCommand np genLink settings vault file (dropinToken ts)
            (beginCommand ed0 ts) (some rawName) fs).editor.doc = none)
    ∧ (∀ vault : Vault,
        getAbstractFileByPath vault (computedFolderPath np file (np rawName)) = none →
        firstIndexOf (dropinToken ts)
          (resumeCommand np genLink settings vault file (dropinToken ts)
            (beginCommand ed0 ts) (some rawName) FsOutcome.folderFails).editor.doc = none
        ∧ firstIndexOf (dropinToken ts)
          (resumeCommand np genLink settings vault file (dropinToken ts)
            (beginCommand ed0 ts) (some rawName) FsOutcome.noteFails).editor.doc = none)
    ∧ (∀ vault : Vault,
        getAbstractFileByPath vault (computedFolderPath np file (np rawName)) = none →
        getAbstractFileByPath vault (computedNotePath np file (np rawName)) = none →
        computedFolderPath np file (np rawName) ≠ computedNotePath np file (np rawName) →
        firstIndexOf (dropinToken ts)
          (ed0.doc.take ed0.selA
            ++ genLink (computedNotePath np file (np rawName)) file.path
            ++ ed0.doc.drop ed0.selB) = none →
        firstIndexOf (dropinToken ts)
          (resumeCommand np genLink settings vault file (dropinToken ts)
            (beginCommand ed0 ts) (some rawName) FsOutcome.ok).editor.doc = none) := by
  have hrem := removeToken_after_begin ed0 ts hsel hfi
  have hremdoc : (removeToken (beginCommand ed0 ts) (dropinToken ts)).doc
      = ed0.doc.take ed0.selA ++ ed0.doc.drop ed0.selB := by rw [hrem]
  have hpre : (ed0.doc.take ed0.selA).length = ed0.selA := by
    rw [List.length_take]
    omega
  refine ⟨rfl, ?_, ?_, ?_, ?_⟩
  · intro vault fs
    rw [resume_none_eq]
    show firstIndexOf _ (removeToken (beginCommand ed0 ts) (dropinToken ts)).doc = none
    rw [hremdoc]
    exact habs
  · intro vault fs hcol
    rw [resume_collision_eq np genLink settings vault file (dropinToken ts)
      (beginCommand ed0 ts) rawName fs hcol]
    show firstIndexOf _ (removeToken (beginCommand ed0 ts) (dropinToken ts)).doc = none
    rw [hremdoc]
    exact habs
  · intro vault hcol
    constructor
    · rw [resume_folderFail_eq np genLink settings vault file (dropinToken ts)
        (beginCommand ed0 ts) rawName hcol]
      show firstIndexOf _ (removeToken (beginCommand ed0 ts) (dropinToken ts)).doc = none
      rw [hremdoc]
      exact habs
    · rw [resume_noteFail_eq np genLink settings vault file (dropinToken ts)
        (beginCommand ed0 ts) rawName hcol]
      show firstIndexOf _ (removeToken (beginCommand ed0 ts) (dropinToken ts)).doc = none
      rw [hremdoc]
      exact habs
  · intro vault hcol hcol2 hne habs2
    rw [resume_success_eq np genLink settings vault file (dropinToken ts)
      (beginCommand ed0 ts) rawName hcol hcol2 hne]
    show firstIndexOf _ (successInsert (beginCommand ed0 ts) (dropinToken ts)
      (genLink (computedNotePath np file (np rawName)) file.path)).doc = none
    rw [successInsert_found (beginCommand ed0 ts) (dropinToken ts) _ ed0.selA
      (dropinToken_ne_nil ts) hfi]
    show firstIndexOf _
      ((beginCommand ed0 ts).doc.take ed0.selA
        ++ genLink (computedNotePath np file (np rawName)) file.path
        ++ (beginCommand ed0 ts).doc.drop (ed0.selA + (dropinToken ts).length)) = none
    have htake : (beginCommand ed0 ts).doc.take ed0.selA = ed0.doc.take ed0.selA :=
      splice_take _ _ _ _ hpre
    have hdrop : (beginCommand ed0 ts).doc.drop (ed0.selA + (dropinToken ts).length)
        = ed0.doc.drop ed0.selB :=
      splice_drop _ _ _ _ hpre
    rw [htake, hdrop]
    exact habs2

/-- Claim C4 witness: the theorem at the name `n`, document `ab` with the
caret at offset 1, timestamp 0, identity `normalizePath` and a host link
generator; the token is absent after the empty-name abort and after the
success path. -/
theorem C4_witness :
    firstIndexOf (dropinToken 0)
      (resumeCommand (fun s => s) (fun p _ => strOf "[n](" ++ p ++ strOf ")")
        DEFAULT_SETTINGS [] ⟨strOf "f.md", none⟩ (dropinToken 0)
        (beginCommand ⟨strOf "ab", 1, 1⟩ 0) none FsOutcome.ok).editor.doc = none
    ∧ firstIndexOf (dropinToken 0)
      (resumeCommand (fun s => s) (fun p _ => strOf "[n](" ++ p ++ strOf ")")
        DEFAULT_SETTINGS [] ⟨strOf "f.md", none⟩ (dropinToken 0)
        (beginCommand ⟨strOf "ab", 1, 1⟩ 0) (some (strOf "n")) FsOutcome.ok).editor.doc
      = none := by
  have h := C4_token_lifecycle (fun s => s) (fun p _ => strOf "[n](" ++ p ++ strOf ")")
    DEFAULT_SETTINGS ⟨strOf "f.md", none⟩ 0 ⟨strOf "ab", 1, 1⟩ (strOf "n")
    (by decide) (by decide) (by decide)
  exact ⟨h.2.1 [] FsOutcome.ok,
    h.2.2.2.2 [] (by decide) (by decide) (by decide) (by decide)⟩

theorem removeToken_doc (edR : Editor) (tok : Str) (idx : Nat) (htok : tok ≠ [])
    (hfi : firstIndexOf tok edR.doc = some idx) :
    (removeToken edR tok).doc = edR.doc.take idx ++ edR.doc.drop (idx + tok.length) := by
  have hb := firstIndexOf_some_bound tok edR.doc idx htok hfi
  rw [removeToken_found edR tok idx hfi hb]

/-- Claim C5: on the success path with the token's first occurrence at
offset `idx` of the resume-time document (which may have been edited during
the prompt), exactly the characters of that occurrence are replaced by the
generated link and the caret lands immediately after the link; when the
token is no longer present, the link is inserted at the current selection
(and the flow is a total function — nothing throws); and the abort-path
token removal does nothing when the token is absent.  The hypothesis that
the generated link is single-line keeps the modelled `setCursor` target
in range, matching the host's clamping behaviour. -/
theorem C5_token_replacement (np : Str → Str) (genLink : Str → Str → Str)
    (settings : DropInNoteSettings) (vault : Vault) (file : FileCtx)
    (ts : Nat) (edR : Editor) (rawName : Str) (idx : Nat)
    (hcol : getAbstractFileByPath vault (computedFolderPath np file (np rawName)) = none)
    (hcol2 : getAbstractFileByPath vault (computedNotePath np file (np rawName)) = none)
    (hne : computedFolderPath np file (np rawName) ≠ computedNotePath np file (np rawName))
    (_hnl : '\n' ∉ genLink (computedNotePath np file (np rawName)) file.path) :
    (firstIndexOf (dropinToken ts) edR.doc = some idx →
      (resumeCommand np genLink settings vault file (dropinToken ts)
          edR (some rawName) FsOutcome.ok).editor
        = { doc := edR.doc.take idx
              ++ genLink (computedNotePath np file (np rawName)) file.path
              ++ edR.doc.drop (idx + (dropinToken ts).length),
            selA := idx + (genLink (computedNotePath np file (np rawName)) file.path).length,
            selB := idx + (genLink (computedNotePath np file (np rawName)) file.path).length })
    ∧ (firstIndexOf (dropinToken ts) edR.doc = none →
      (resumeCommand np genLink settings vault file (dropinToken ts)
          edR (some rawName) FsOutcome.ok).editor
        = edR.replaceSelection (genLink (computedNotePath np file (np rawName)) file.path))
    ∧ (∀ ed' : Editor, firstIndexOf (dropinToken ts) ed'.doc = none →
        removeToken ed' (dropinToken ts) = ed') := by
  refine ⟨?_, ?_, fun ed' h => removeToken_not_found ed' (dropinToken ts) h⟩
  · intro hfi
    rw [resume_success_eq np genLink settings vault file (dropinToken ts)
      edR rawName hcol hcol2 hne]
    show successInsert edR (dropinToken ts)
      (genLink (computedNotePath np file (np rawName)) file.path) = _
    exact successInsert_found edR (dropinToken ts) _ idx (dropinToken_ne_nil ts) hfi
  · intro hnone
    rw [resume_success_eq np genLink settings vault file (dropinToken ts)
      edR rawName hcol hcol2 hne]
    show successInsert edR (dropinToken ts)
      (genLink (computedNotePath np file (np rawName)) file.path) = _
    exact successInsert_not_found edR (dropinToken ts) _ hnone

/-- Claim C5 witness: the theorem at the document `ab%%dropin_0%%cd` (token
first occurrence at offset 2), the name `n` and a concrete single-line link
generator; the token range is replaced and the caret offset is 2 plus the
link length. -/
theorem C5_witness :
    firstIndexOf (dropinToken 0) (strOf "ab%%dropin_0%%cd") = some 2
    ∧ (resumeCommand (fun s => s) (fun p _ => strOf "[n](" ++ p ++ strOf ")")
        DEFAULT_SETTINGS [] ⟨strOf "f.md", none⟩ (dropinToken 0)
        ⟨strOf "ab%%dropin_0%%cd", 0, 0⟩ (some (strOf "n")) FsOutcome.ok).editor
      = { doc := (strOf "ab%%dropin_0%%cd").take 2
            ++ (fun (p : Str) (_ : Str) => strOf "[n](" ++ p ++ strOf ")")
                (computedNotePath (fun s => s) ⟨strOf "f.md", none⟩
                  ((fun s => s) (strOf "n"))) (⟨strOf "f.md", none⟩ : FileCtx).path
            ++ (strOf "ab%%dropin_0%%cd").drop (2 + (dropinToken 0).length),
          selA := 2 + ((fun (p : Str) (_ : Str) => strOf "[n](" ++ p ++ strOf ")")
                (computedNotePath (fun s => s) ⟨strOf "f.md", none⟩
                  ((fun s => s) (strOf "n"))) (⟨strOf "f.md", none⟩ : FileCtx).path).length,
          selB := 2 + ((fun (p : Str) (_ : Str) => strOf "[n](" ++ p ++ strOf ")")
                (computedNotePath (fun s => s) ⟨strOf "f.md", none⟩
                  ((fun s => s) (strOf "n"))) (⟨strOf "f.md", none⟩ : FileCtx).path).length } := by
  have h := C5_token_replacement (fun s => s)
    (fun p _ => strOf "[n](" ++ p ++ strOf ")") DEFAULT_SETTINGS []
    ⟨strOf "f.md", none⟩ 0 ⟨strOf "ab%%dropin_0%%cd", 0, 0⟩ (strOf "n") 2
    (by decide) (by decide) (by decide) (by decide)
  exact ⟨by decide, h.1 (by decide)⟩

/-- Claim C6: when the host fails the folder-creation call or the
note-creation call, the flow ends regularly in the catch branch (no
exception escapes the modelled total function): the error is logged, the
generic notice is shown, the token occurrence is removed from the document,
and a folder already created before a note-creation failure is left in
place while a folder-creation failure leaves the vault untouched. -/
theorem C6_io_failure (np : Str → Str) (genLink : Str → Str → Str)
    (settings : DropInNoteSettings) (vault : Vault) (file : FileCtx)
    (ts : Nat) (edR : Editor) (rawName : Str) (idx : Nat)
    (hcol : getAbstractFileByPath vault (computedFolderPath np file (np rawName)) = none)
    (hfi : firstIndexOf (dropinToken ts) edR.doc = some idx) :
    ((resumeCommand np genLink settings vault file (dropinToken ts)
        edR (some rawName) FsOutcome.folderFails).logged = true
      ∧ (resumeCommand np genLink settings vault file (dropinToken ts)
          edR (some rawName) FsOutcome.folderFails).notices = [errorNotice]
      ∧ (resumeCommand np genLink settings vault file (dropinToken ts)
          edR (some rawName) FsOutcome.folderFails).vault = vault
      ∧ (resumeCommand np genLink settings vault file (dropinToken ts)
          edR (some rawName) FsOutcome.folderFails).editor.doc
        = edR.doc.take idx ++ edR.doc.drop (idx + (dropinToken ts).length))
    ∧ ((resumeCommand np genLink settings vault file (dropinToken ts)
        edR (some rawName) FsOutcome.noteFails).logged = true
      ∧ (resumeCommand np genLink settings vault file (dropinToken ts)
          edR (some rawName) FsOutcome.noteFails).notices = [errorNotice]
      ∧ (resumeCommand np genLink settings vault file (dropinToken ts)
          edR (some rawName) FsOutcome.noteFails).vault
        = vault ++ [VEntry.folder (computedFolderPath np file (np rawName))]
      ∧ (resumeCommand np genLink settings vault file (dropinToken ts)
          edR (some rawName) FsOutcome.noteFails).editor.doc
        = edR.doc.take idx ++ edR.doc.drop (idx + (dropinToken ts).length)) := by
  have hrd := removeToken_doc edR (dropinToken ts) idx (dropinToken_ne_nil ts) hfi
  have hf := resume_folderFail_eq np genLink settings vault file (dropinToken ts)
    edR rawName hcol
  have hn := resume_noteFail_eq np genLink settings vault file (dropinToken ts)
    edR rawName hcol
  exact ⟨⟨by rw [hf], by rw [hf], by rw [hf], by rw [hf]; exact hrd⟩,
    ⟨by rw [hn], by rw [hn], by rw [hn], by rw [hn]; exact hrd⟩⟩

/-- Claim C6 witness: the theorem at the name `n`, empty vault and the
document `a%%dropin_0%%b`; both failure injections log, notify, remove the
token, and the note-creation failure leaves the fresh folder in place. -/
theorem C6_witness :
    (resumeCommand (fun s => s) (fun _ _ => []) DEFAULT_SETTINGS []
        ⟨strOf "f.md", none⟩ (dropinToken 0) ⟨strOf "a%%dropin_0%%b", 0, 0⟩
        (some (strOf "n")) FsOutcome.folderFails).vault = []
    ∧ (resumeCommand (fun s => s) (fun _ _ => []) DEFAULT_SETTINGS []
        ⟨strOf "f.md", none⟩ (dropinToken 0) ⟨strOf "a%%dropin_0%%b", 0, 0⟩
        (some (strOf "n")) FsOutcome.noteFails).vault
      = [] ++ [VEntry.folder (computedFolderPath (fun s => s) ⟨strOf "f.md", none⟩
          ((fun s => s) (strOf "n")))]
    ∧ (resumeCommand (fun s => s) (fun _ _ => []) DEFAULT_SETTINGS []
        ⟨strOf "f.md", none⟩ (dropinToken 0) ⟨strOf "a%%dropin_0%%b", 0, 0⟩
        (some (strOf "n")) FsOutcome.noteFails).editor.doc
      = (strOf "a%%dropin_0%%b").take 1
        ++ (strOf "a%%dropin_0%%b").drop (1 + (dropinToken 0).length) := by
  have h := C6_io_failure (fun s => s) (fun _ _ => []) DEFAULT_SETTINGS []
    ⟨strOf "f.md", none⟩ 0 ⟨strOf "a%%dropin_0%%b", 0, 0⟩ (strOf "n") 1
    (by decide) (by decide)
  exact ⟨h.1.2.2.1, h.2.2.2.1, h.2.2.2.2⟩

/-- Claim C10: in the v1.0.0 variant the single value `normalizePath(rawName)`
— `np rawName` for the abstract host `normalizePath` — is the value fed to
the folder-path computation, re-normalized into the note path (whose
filename stem it is), and substituted for the placeholder in the created
note's content; the created file's content therefore carries the normalized
name, not the raw trimmed input. -/
theorem C10_normalized_name (np : Str → Str) (genLink : Str → Str → Str)
    (settings : DropInNoteSettings) (vault : Vault) (file : FileCtx)
    (ts : Nat) (edR : Editor) (rawName : Str)
    (hcol : getAbstractFileByPath vault (computedFolderPath np file (np rawName)) = none)
    (hcol2 : getAbstractFileByPath vault (computedNotePath np file (np rawName)) = none)
    (hne : computedFolderPath np file (np rawName) ≠ computedNotePath np file (np rawName)) :
    (resumeCommand np genLink settings vault file (dropinToken ts)
        edR (some rawName) FsOutcome.ok).vault
      = vault
        ++ [VEntry.folder (computedFolderPath np file (np rawName))]
        ++ [VEntry.file (computedNotePath np file (np rawName))
              (jsReplaceAll namePlaceholder (np rawName) settings.noteTemplate)]
    ∧ computedNotePath np file (np rawName)
      = np (computedFolderPath np file (np rawName)
          ++ strOf "/" ++ np rawName ++ strOf ".md")
    ∧ computedFolderPath np file (np rawName)
      = np (if file.parentPath.getD [] ≠ [] then
              file.parentPath.getD [] ++ strOf "/" ++ np rawName
            else np rawName) := by
  refine ⟨?_, rfl, rfl⟩
  rw [resume_success_eq np genLink settings vault file (dropinToken ts)
    edR rawName hcol hcol2 hne]

/-- Claim C10 witness: the theorem at a host `normalizePath` that is not
the identity on the input (it strips spaces, so the raw trimmed input
`r aw` becomes `raw`): the created note's path and content carry the
normalized name. -/
theorem C10_witness :
    (resumeCommand (fun s => s.filter (fun c => c ≠ ' ')) (fun _ _ => [])
        DEFAULT_SETTINGS [] ⟨strOf "f.md", none⟩ (dropinToken 0) ⟨[], 0, 0⟩
        (some (strOf "r aw")) FsOutcome.ok).vault
      = []
        ++ [VEntry.folder (computedFolderPath (fun s => s.filter (fun c => c ≠ ' '))
              ⟨strOf "f.md", none⟩
              ((fun s => s.filter (fun c => c ≠ ' ')) (strOf "r aw")))]
        ++ [VEntry.file (computedNotePath (fun s => s.filter (fun c => c ≠ ' '))
              ⟨strOf "f.md", none⟩
              ((fun s => s.filter (fun c => c ≠ ' ')) (strOf "r aw")))
              (jsReplaceAll namePlaceholder
                ((fun s => s.filter (fun c => c ≠ ' ')) (strOf "r aw"))
                DEFAULT_SETTINGS.noteTemplate)]
    ∧ computedNotePath (fun s => s.filter (fun c => c ≠ ' ')) ⟨strOf "f.md", none⟩
        ((fun s => s.filter (fun c => c ≠ ' ')) (strOf "r aw"))
      = (fun s => s.filter (fun c => c ≠ ' '))
          (computedFolderPath (fun s => s.filter (fun c => c ≠ ' '))
              ⟨strOf "f.md", none⟩
              ((fun s => s.filter (fun c => c ≠ ' ')) (strOf "r aw"))
            ++ strOf "/" ++ (fun s => s.filter (fun c => c ≠ ' ')) (strOf "r aw")
            ++ strOf ".md") := by
  have h := C10_normalized_name (fun s => s.filter (fun c => c ≠ ' '))
    (fun _ _ => []) DEFAULT_SETTINGS [] ⟨strOf "f.md", none⟩ 0 ⟨[], 0, 0⟩
    (strOf "r aw") (by decide) (by decide) (by decide)
  exact ⟨h.1, h.2.1⟩

end DropInNote
